import Mathlib

/-!
Verification of the trend aggregation and caching layer of the
cyber-monk-backend repository.

The definitions below are a shallow embedding of the JavaScript source:

* `src/src/services/trends-service.js` — `isStale`, `shapeResponse`,
  `crawlAndExtract`, `refreshTrends`, `getTrends`, the per-mode cache;
* `src/src/services/youtube-crawler.js` — the keyword taxonomy,
  `extractKeywords`, `categorizeKeyword`, `extractTrendingKeywords`,
  `combineTrends`, and the mock channel data;
* the in-memory sources data store (its `module.exports` list), which is
  what `sourcesData.updateLastCrawled` resolves against.

Effectful collaborator calls (the awaited YouTube crawl, `Math.random`
inside extraction) are passed in as explicit oracle parameters; machine
timestamps are integers (milliseconds); JavaScript objects keyed by
keyword are association lists in insertion order.  JavaScript inserts
integer-like object keys (such as "2024") ahead of the others; this only
permutes the pre-sort order of merged records, which no modelled
operation observes beyond tie-breaking in the final sort, so the
embedding keeps plain insertion order.
-/

/-- A trend record as produced by extraction and merging.  The source also
carries opaque display fields (`updated_at`, `sentiment`, `velocity`) that
are never read by the cache, merge, or shaping code; they are omitted. -/
structure Trend where
  keyword : String
  mentions : Nat
  growth : String
  volume : Nat
  category : String
deriving DecidableEq, Repr

/-- ASCII lower-casing of a character, as JavaScript `toLowerCase` acts on
the ASCII range (the only range the keyword taxonomy uses). -/
def asciiLowerChar (c : Char) : Char :=
  if 'A' ≤ c && c ≤ 'Z' then Char.ofNat (c.toNat + 32) else c

/-- ASCII lower-casing of a string. -/
def asciiLower (s : String) : String := String.mk (s.data.map asciiLowerChar)

/-- The `technology` keyword list of the crawler's taxonomy. -/
def trendKeywordsTechnology : List String :=
  ["ai", "machine learning", "code", "programming", "software", "development",
   "tech", "api", "database", "cloud", "javascript", "python", "react", "node",
   "web", "mobile", "app", "system", "architecture", "devops", "cybersecurity",
   "blockchain", "data", "analytics", "automation"]

/-- The `business` keyword list of the crawler's taxonomy. -/
def trendKeywordsBusiness : List String :=
  ["startup", "entrepreneur", "business", "marketing", "growth", "strategy",
   "revenue", "funding", "investment", "scale", "product", "market", "customer",
   "sales", "monetization", "profit", "roi", "conversion", "acquisition"]

/-- The `content` keyword list of the crawler's taxonomy. -/
def trendKeywordsContent : List String :=
  ["content", "creator", "video", "youtube", "social media", "influencer",
   "brand", "engagement", "audience", "viral", "trending", "seo",
   "optimization", "analytics"]

/-- The `general` keyword list of the crawler's taxonomy. -/
def trendKeywordsGeneral : List String :=
  ["tutorial", "guide", "tips", "how to", "best", "top", "review", "comparison",
   "vs", "new", "latest", "update", "release", "2024", "2025", "future",
   "trend", "prediction"]

/-- The concatenation `[...technology, ...business, ...content, ...general]`
built inside `extractKeywords`. -/
def allTrendKeywords : List String :=
  trendKeywordsTechnology ++ trendKeywordsBusiness ++ trendKeywordsContent ++
    trendKeywordsGeneral

/-- A character counted by the JavaScript `\w` class: ASCII letters, digits,
underscore (the text is already lower-cased when this is applied). -/
def isWordChar (c : Char) : Bool :=
  ('a' ≤ c && c ≤ 'z') || ('A' ≤ c && c ≤ 'Z') || ('0' ≤ c && c ≤ '9') || c == '_'

/-- Split a character list at every separator character.  Models the effect
of `replace(/[^\w\s]/g, ' ')` followed by `split(/\s+/)`: tokens are the
maximal runs of word characters, empty tokens are produced at separator
runs and later removed by the length filter. -/
def splitChars (sep : Char → Bool) (cs : List Char) : List (List Char) :=
  cs.foldr
    (fun c acc =>
      if sep c then [] :: acc
      else match acc with
        | [] => [[c]]
        | w :: ws => (c :: w) :: ws)
    [[]]

/-- One step of the keyword accumulation of `extractKeywords`: keep a
word that is in the taxonomy and not yet collected. -/
def keywordFold (acc : List String) (w : String) : List String :=
  if allTrendKeywords.contains w && !(acc.contains w) then acc ++ [w] else acc

/-- `extractKeywords` of the crawler: lower-case the text, tokenize on
non-word characters, keep tokens longer than 2 characters, keep those in
the fixed taxonomy, deduplicate preserving first occurrence, take 10. -/
def extractKeywords (text : String) : List String :=
  let words := ((splitChars (fun c => !isWordChar c) (asciiLower text).data).map
      (fun cs => String.mk cs)).filter (fun w => w.length > 2)
  (words.foldl keywordFold []).take 10

/-- `categorizeKeyword` of the crawler: first category (in insertion order
technology, business, content, general) whose list contains the
lower-cased keyword; capitalized; `General` as fallback. -/
def categorizeKeyword (k : String) : String :=
  if trendKeywordsTechnology.contains (asciiLower k) then "Technology"
  else if trendKeywordsBusiness.contains (asciiLower k) then "Business"
  else if trendKeywordsContent.contains (asciiLower k) then "Content"
  else if trendKeywordsGeneral.contains (asciiLower k) then "General"
  else "General"

/-- One step of the `keywordCounts` accumulation: bump the count of an
already-seen keyword, or append a fresh count of 1. -/
def countFold (acc : List (String × Nat)) (k : String) : List (String × Nat) :=
  if acc.any (fun p => p.1 == k) then
    acc.map (fun p => if p.1 == k then (p.1, p.2 + 1) else p)
  else acc ++ [(k, 1)]

/-- Occurrence counts of keywords across all videos, keyed by keyword in
first-seen order (the `keywordCounts` object of `extractTrendingKeywords`). -/
def keywordCountsOf (kws : List String) : List (String × Nat) :=
  kws.foldl countFold []

/-- Descending order on `mentions`, the comparator
`(a, b) => b.mentions - a.mentions` of the source. -/
def mentionsGe (a b : Trend) : Prop := b.mentions ≤ a.mentions

instance : DecidableRel mentionsGe := fun a b => Nat.decLe b.mentions a.mentions

/-- Stable sort by `mentions` descending (JavaScript `Array.prototype.sort`
is stable, as is insertion sort). -/
def sortByMentionsDesc (l : List Trend) : List Trend := List.insertionSort mentionsGe l

/-- `extractTrendingKeywords` of the crawler.  A video contributes its
`keywords` list; `growth` and `volume` are produced by `Math.random` and
are therefore oracle parameters; `category` comes from the taxonomy. -/
def extractTrendingKeywords (videos : List (List String))
    (growthFn : String → String) (volumeFn : String → Nat) : List Trend :=
  sortByMentionsDesc
    ((keywordCountsOf videos.flatten).map
      (fun p =>
        { keyword := p.1, mentions := p.2, growth := growthFn p.1,
          volume := volumeFn p.1, category := categorizeKeyword p.1 }))

/-- Merging one record into an already-combined record for the same keyword:
`mentions` and `volume` accumulate, everything else (keyword, growth,
category) keeps the first-seen value. -/
def mergeInto (t u : Trend) : Trend :=
  { u with mentions := u.mentions + t.mentions, volume := u.volume + t.volume }

/-- One step of the `combinedKeywords` accumulation of `combineTrends`:
if a record with the same keyword exists, add into it, otherwise append a
copy of the record. -/
def combineStep (acc : List Trend) (t : Trend) : List Trend :=
  if acc.any (fun u => u.keyword == t.keyword) then
    acc.map (fun u => if u.keyword == t.keyword then mergeInto t u else u)
  else acc ++ [t]

/-- The full `combinedKeywords` accumulation over a flat record stream. -/
def combineAll (ts : List Trend) : List Trend := ts.foldl combineStep []

/-- `combineTrends` of the crawler: accumulate over all per-source arrays,
then sort by `mentions` descending and truncate to the top 20. -/
def combineTrends (tss : List (List Trend)) : List Trend :=
  (sortByMentionsDesc (combineAll tss.flatten)).take 20

/-- Keyword lists of the five mock videos returned for `100xengineers`
channels by `getMockChannelData`. -/
def mockVideoKeywords100x : List (List String) :=
  [["ai", "generated", "gaming", "technology", "rdr2", "gta6"],
   ["startup", "business", "plan", "2025", "template", "guide"],
   ["code", "review", "engineering", "development", "practices", "team"],
   ["api", "nodejs", "express", "scalable", "backend", "programming"],
   ["machine learning", "ai", "software", "engineering", "ml", "data"]]

/-- Keyword list of the single generic mock video of `getMockChannelData`. -/
def mockVideoKeywordsGeneric : List (List String) :=
  [["tech", "trends", "2025", "developer", "technology"]]

/-- The fabricated RSS trends of `crawlAndExtract` (non-source-based mode). -/
def rssMockTrends : List Trend :=
  [{ keyword := "technology", mentions := 5, growth := "+45%", volume := 12000, category := "Technology" },
   { keyword := "innovation", mentions := 3, growth := "+62%", volume := 8500, category := "Business" },
   { keyword := "research", mentions := 4, growth := "+38%", volume := 9200, category := "General" }]

/-- The fabricated Twitter trends of `crawlAndExtract` (non-source-based mode). -/
def twitterMockTrends : List Trend :=
  [{ keyword := "ai", mentions := 8, growth := "+123%", volume := 25000, category := "Technology" },
   { keyword := "startup", mentions := 4, growth := "+89%", volume := 18000, category := "Business" },
   { keyword := "content", mentions := 6, growth := "+67%", volume := 15000, category := "Content" }]

/-- A tracked source as stored by the in-memory sources data store. -/
structure Source where
  id : Nat
  name : String
  type : String
  url : String
  status : String
deriving DecidableEq, Repr

/-- Whether a pattern is an initial segment of a character list. -/
def startsWithChars : List Char → List Char → Bool
  | [], _ => true
  | _ :: _, [] => false
  | p :: ps, h :: hs => p == h && startsWithChars ps hs

/-- Whether a pattern occurs somewhere in a character list. -/
def hasSubChars (pat : List Char) : List Char → Bool
  | [] => startsWithChars pat []
  | h :: hs => startsWithChars pat (h :: hs) || hasSubChars pat hs

/-- JavaScript `String.prototype.includes`. -/
def strIncludes (hay pat : String) : Bool := hasSubChars pat.data hay.data

/-- The YouTube branch guard of `crawlAndExtract`:
`source.type === 'YouTube' || source.url.includes('youtube.com')`. -/
def isYouTubeSource (s : Source) : Bool :=
  s.type == "YouTube" || strIncludes s.url "youtube.com"

/-- The `module.exports` list of the in-memory sources data store
(`src/unnamed/part_003`). -/
def sourcesDataExports : List String :=
  ["getAll", "getById", "create", "update", "deleteById", "updateStatus"]

/-- `updateLastCrawled` is not among the store's exports, so the call
`sourcesData.updateLastCrawled(...)` in `crawlAndExtract` throws a
`TypeError` at runtime. -/
def updateLastCrawledMissing : Bool := !(sourcesDataExports.contains "updateLastCrawled")

/-- The message of the `TypeError` thrown when the missing export is
invoked as a function. -/
def updateLastCrawledErrMsg : String := "sourcesData.updateLastCrawled is not a function"

/-- One entry of the per-source `crawlResults` summary.  Fields that the
source sets only on some paths are `Option`s. -/
structure SummaryEntry where
  source : String
  type : String
  status : String
  isMockData : Option Bool
  videosFound : Option Nat
  trendsExtracted : Option Nat
  error : Option String
deriving DecidableEq, Repr

/-- The data part of a resolved `crawlYouTubeChannel` call: videos are
reduced to their keyword lists (the only field extraction reads). -/
structure CrawlData where
  isMockData : Bool
  totalVideos : Nat
  videos : List (List String)

/-- A resolved crawl step, together with the `Math.random` draws that
`extractTrendingKeywords` would make for it. -/
structure CrawlStep where
  success : Bool
  data : CrawlData
  growthFn : String → String
  volumeFn : String → Nat

/-- The effect environment of one aggregation pass: the sources registry
read (which may throw), the per-source-index crawl outcome (a rejected
promise is `Except.error`), and the clock. -/
structure Env where
  getAll : Except String (List Source)
  oracle : Nat → Except String CrawlStep
  now : Int

/-- What one iteration of the `crawlAndExtract` loop produces for one
active source: the trend records pushed onto `allTrends`, the summary
entries pushed onto `crawlResults`, and whether the pacing delay at the
end of the `try` block was reached. -/
structure SourcePass where
  trends : List Trend
  summaries : List SummaryEntry
  delayRan : Bool
deriving Repr

/-- One iteration of the `crawlAndExtract` loop.  In every branch that
records a `success` entry the loop then calls the missing
`sourcesData.updateLastCrawled`, whose `TypeError` is caught by the
per-source handler, which appends an additional `failed` entry and skips
the pacing delay. -/
def processSource (sourceBased : Bool) (src : Source)
    (step : Except String CrawlStep) : SourcePass :=
  if isYouTubeSource src then
    match step with
    | .error e =>
      { trends := [],
        summaries := [{ source := src.name, type := src.type, status := "failed",
                        isMockData := none, videosFound := none,
                        trendsExtracted := none, error := some e }],
        delayRan := false }
    | .ok s =>
      if s.success then
        let trends := extractTrendingKeywords s.data.videos s.growthFn s.volumeFn
        if updateLastCrawledMissing then
          { trends := trends,
            summaries :=
              [{ source := src.name, type := src.type, status := "success",
                 isMockData := some s.data.isMockData,
                 videosFound := some s.data.totalVideos,
                 trendsExtracted := some trends.length, error := none },
               { source := src.name, type := src.type, status := "failed",
                 isMockData := none, videosFound := none, trendsExtracted := none,
                 error := some updateLastCrawledErrMsg }],
            delayRan := false }
        else
          { trends := trends,
            summaries :=
              [{ source := src.name, type := src.type, status := "success",
                 isMockData := some s.data.isMockData,
                 videosFound := some s.data.totalVideos,
                 trendsExtracted := some trends.length, error := none }],
            delayRan := true }
      else
        { trends := [],
          summaries := [{ source := src.name, type := src.type, status := "failed",
                          isMockData := none, videosFound := none,
                          trendsExtracted := none, error := none }],
          delayRan := true }
  else if !sourceBased then
    if src.type == "RSS" then
      if updateLastCrawledMissing then
        { trends := rssMockTrends,
          summaries :=
            [{ source := src.name, type := src.type, status := "success",
               isMockData := some true, videosFound := none,
               trendsExtracted := some rssMockTrends.length, error := none },
             { source := src.name, type := src.type, status := "failed",
               isMockData := none, videosFound := none, trendsExtracted := none,
               error := some updateLastCrawledErrMsg }],
          delayRan := false }
      else
        { trends := rssMockTrends,
          summaries :=
            [{ source := src.name, type := src.type, status := "success",
               isMockData := some true, videosFound := none,
               trendsExtracted := some rssMockTrends.length, error := none }],
          delayRan := true }
    else if src.type == "Twitter" then
      if updateLastCrawledMissing then
        { trends := twitterMockTrends,
          summaries :=
            [{ source := src.name, type := src.type, status := "success",
               isMockData := some true, videosFound := none,
               trendsExtracted := some twitterMockTrends.length, error := none },
             { source := src.name, type := src.type, status := "failed",
               isMockData := none, videosFound := none, trendsExtracted := none,
               error := some updateLastCrawledErrMsg }],
          delayRan := false }
      else
        { trends := twitterMockTrends,
          summaries :=
            [{ source := src.name, type := src.type, status := "success",
               isMockData := some true, videosFound := none,
               trendsExtracted := some twitterMockTrends.length, error := none }],
          delayRan := true }
    else
      { trends := [], summaries := [], delayRan := true }
  else
    { trends := [], summaries := [], delayRan := true }

/-- The `status === 'active'` filter applied to the registry's sources. -/
def activeOf (sources : List Source) : List Source :=
  sources.filter (fun s => s.status == "active")

/-- The loop of `crawlAndExtract`, one `SourcePass` per active source in
order, the crawl oracle indexed by loop position. -/
def sourcePasses (env : Env) (sourceBased : Bool) (active : List Source) :
    List SourcePass :=
  active.enum.map (fun p => processSource sourceBased p.2 (env.oracle p.1))

/-- The aggregation metadata built at the end of `crawlAndExtract`. -/
structure Meta where
  sourcesAnalyzed : Nat
  lastUpdated : Int
  realDataSources : Nat
  successCount : Nat
  crawlResults : List SummaryEntry
deriving DecidableEq, Repr

/-- The value of one aggregation pass: merged trends plus metadata. -/
structure CrawlOutput where
  trends : List Trend
  meta : Meta
deriving DecidableEq, Repr

/-- `crawlAndExtract` of the trends service.  It propagates a registry
failure; per-source failures are absorbed by `processSource`. -/
def crawlAndExtract (env : Env) (sourceBased : Bool) : Except String CrawlOutput :=
  match env.getAll with
  | .error e => .error e
  | .ok sources =>
    let active := activeOf sources
    let passes := sourcePasses env sourceBased active
    let allTrends := (passes.map SourcePass.trends).flatten
    let crawlResults := (passes.map SourcePass.summaries).flatten
    let combined := combineTrends [allTrends]
    .ok
      { trends := combined,
        meta :=
          { sourcesAnalyzed := active.length,
            lastUpdated := env.now,
            realDataSources :=
              crawlResults.countP
                (fun r => r.status == "success" && !(r.isMockData.getD false)),
            successCount := crawlResults.countP (fun r => r.status == "success"),
            crawlResults := crawlResults } }

/-- The fixed TTL: 10 minutes in milliseconds. -/
def DEFAULT_TTL_MS : Int := 10 * 60 * 1000

/-- A cache entry of the trends service. -/
structure CacheEntry where
  data : List Trend
  updatedAt : Int
  summary : Meta
  ttlMs : Int
deriving DecidableEq, Repr

/-- The cache keyed by `String(!!sourceBased)`; a Boolean key is faithful. -/
def CacheState := Bool → Option CacheEntry

/-- `isStale` of the trends service: a missing entry is stale, an entry is
stale when strictly older than its TTL (an `ttlMs` of 0 is falsy in
JavaScript and falls back to the default). -/
def isStale (entry : Option CacheEntry) (now : Int) : Bool :=
  match entry with
  | none => true
  | some e => now - e.updatedAt > (if e.ttlMs == 0 then DEFAULT_TTL_MS else e.ttlMs)

/-- A shaped trend record: the four public fields of the response. -/
structure ShapedTrend where
  keyword : String
  growth : String
  category : String
  mentions : Nat
deriving DecidableEq, Repr

/-- The `analysis_summary` of the response shape. -/
structure AnalysisSummary where
  sources_analyzed : Nat
  total_keywords_extracted : Nat
  last_updated : Int
  real_data_sources : Option Nat
deriving DecidableEq, Repr

/-- The uniform response shape of the service. -/
structure TrendsResponse where
  trends : List ShapedTrend
  trends_count : Nat
  analysis_summary : AnalysisSummary
deriving DecidableEq, Repr

/-- The `meta` argument of `shapeResponse`; every field is optional at the
call sites' types (`?.`, `??`, `||` in the source). -/
structure ShapeMeta where
  sourcesAnalyzed : Option Nat
  lastUpdated : Option Int
  realDataSources : Option Nat

/-- Projection of one record to the four public fields. -/
def shapeTrend (t : Trend) : ShapedTrend :=
  { keyword := t.keyword, growth := t.growth, category := t.category,
    mentions := t.mentions }

/-- `shapeResponse` of the trends service.  `trends_count` and
`total_keywords_extracted` are both the shaped list's length;
`last_updated` falls back to the clock when absent or 0 (JavaScript `||`);
`real_data_sources` is included exactly when a number was passed. -/
def shapeResponse (trendsArray : List Trend) (meta : ShapeMeta) (now : Int) :
    TrendsResponse :=
  let shaped := trendsArray.map shapeTrend
  { trends := shaped,
    trends_count := shaped.length,
    analysis_summary :=
      { sources_analyzed := meta.sourcesAnalyzed.getD 0,
        total_keywords_extracted := shaped.length,
        last_updated :=
          match meta.lastUpdated with
          | none => now
          | some t => if t == 0 then now else t,
        real_data_sources := meta.realDataSources } }

/-- `refreshTrends` of the trends service: run an aggregation pass, replace
the cache entry for the mode wholesale, and return the shaped response.
On an aggregation-level error nothing is written and the error
propagates. -/
def refreshTrends (env : Env) (sourceBased : Bool) (st : CacheState) :
    Except String TrendsResponse × CacheState :=
  match crawlAndExtract env sourceBased with
  | .error e => (.error e, st)
  | .ok out =>
    let entry : CacheEntry :=
      { data := out.trends, updatedAt := out.meta.lastUpdated,
        summary := out.meta, ttlMs := DEFAULT_TTL_MS }
    (.ok
      (shapeResponse out.trends
        { sourcesAnalyzed := some out.meta.sourcesAnalyzed,
          lastUpdated := some out.meta.lastUpdated,
          realDataSources := some out.meta.realDataSources } env.now),
     fun b => if b == sourceBased then some entry else st b)

/-- The observable outcome of one synchronous `getTrends` call:
the returned (or thrown) response, the cache as left by the synchronous
part of the call, whether a foreground aggregation pass ran, and whether a
fire-and-forget background aggregation pass was started (its own cache
write happens only when it later completes). -/
structure GetTrendsOutcome where
  response : Except String TrendsResponse
  cacheAfter : CacheState
  foregroundRefresh : Bool
  backgroundStarted : Bool

/-- `getTrends` of the trends service.  A forced call or a cache miss runs
a foreground refresh; otherwise the cached entry is shaped and served, and
if it is stale and background refreshing is allowed a background pass is
started unconditionally — the source keeps no in-flight flag. -/
def getTrends (env : Env) (sourceBased forceRefresh backgroundIfStale : Bool)
    (st : CacheState) : GetTrendsOutcome :=
  match st sourceBased with
  | none =>
    let r := refreshTrends env sourceBased st
    { response := r.1, cacheAfter := r.2, foregroundRefresh := true,
      backgroundStarted := false }
  | some e =>
    if forceRefresh then
      let r := refreshTrends env sourceBased st
      { response := r.1, cacheAfter := r.2, foregroundRefresh := true,
        backgroundStarted := false }
    else
      { response := .ok
          (shapeResponse e.data
            { sourcesAnalyzed := some e.summary.sourcesAnalyzed,
              lastUpdated := some e.updatedAt,
              realDataSources := some e.summary.realDataSources } env.now),
        cacheAfter := st,
        foregroundRefresh := false,
        backgroundStarted := isStale (some e) env.now && backgroundIfStale }

/-! ### Helper notions for the merge step -/

/-- First record with a given keyword (what the `combinedKeywords` object
lookup sees). -/
def firstWith (l : List Trend) (k : String) : Option Trend :=
  l.find? (fun t => t.keyword == k)

/-- Total mentions contributed by records with a given keyword. -/
def sumMentions (l : List Trend) (k : String) : Nat :=
  ((l.filter (fun t => t.keyword == k)).map Trend.mentions).sum

/-- Total volume contributed by records with a given keyword. -/
def sumVolume (l : List Trend) (k : String) : Nat :=
  ((l.filter (fun t => t.keyword == k)).map Trend.volume).sum

lemma mergeInto_keyword (t u : Trend) : (mergeInto t u).keyword = u.keyword := rfl

lemma updIf_keyword (t u : Trend) :
    (if u.keyword == t.keyword then mergeInto t u else u).keyword = u.keyword := by
  by_cases h : u.keyword == t.keyword <;> simp [h, mergeInto]

lemma keys_combineStep (acc : List Trend) (t : Trend) :
    (combineStep acc t).map Trend.keyword =
      if acc.any (fun u => u.keyword == t.keyword) then acc.map Trend.keyword
      else acc.map Trend.keyword ++ [t.keyword] := by
  unfold combineStep
  by_cases h : acc.any (fun u => u.keyword == t.keyword)
  · simp only [h, if_true, List.map_map]
    exact List.map_congr_left (fun u _ => updIf_keyword t u)
  · simp [h]

lemma nodup_keys_combineStep (acc : List Trend) (t : Trend)
    (h : (acc.map Trend.keyword).Nodup) :
    ((combineStep acc t).map Trend.keyword).Nodup := by
  rw [keys_combineStep]
  by_cases hc : acc.any (fun u => u.keyword == t.keyword)
  · simpa [hc] using h
  · have hnm : t.keyword ∉ acc.map Trend.keyword := by
      intro hmem
      rcases List.mem_map.mp hmem with ⟨u, hu, hk⟩
      have : acc.any (fun u => u.keyword == t.keyword) = true :=
        List.any_eq_true.mpr ⟨u, hu, by simp [hk]⟩
      simp [this] at hc
    simp only [hc, if_false]
    exact List.Nodup.append h (List.nodup_singleton _)
      (by simpa [List.disjoint_singleton] using hnm)

lemma nodup_keys_foldl (ts : List Trend) :
    ∀ acc : List Trend, (acc.map Trend.keyword).Nodup →
      ((ts.foldl combineStep acc).map Trend.keyword).Nodup := by
  induction ts with
  | nil => intro acc h; simpa using h
  | cons t ts ih =>
    intro acc h
    exact ih (combineStep acc t) (nodup_keys_combineStep acc t h)

lemma nodup_keys_combineAll (ts : List Trend) :
    ((combineAll ts).map Trend.keyword).Nodup :=
  nodup_keys_foldl ts [] (by simp)

lemma firstWith_combineStep (acc : List Trend) (t : Trend) (k : String) :
    firstWith (combineStep acc t) k =
      if acc.any (fun u => u.keyword == t.keyword) then
        (firstWith acc k).map
          (fun u => if u.keyword == t.keyword then mergeInto t u else u)
      else (firstWith acc k).or (if t.keyword == k then some t else none) := by
  unfold combineStep firstWith
  by_cases h : acc.any (fun u => u.keyword == t.keyword)
  · simp only [h, if_true]
    rw [List.find?_map]
    have hp : ((fun t => t.keyword == k) ∘
        fun u => if u.keyword == t.keyword then mergeInto t u else u) =
        (fun t => t.keyword == k) := by
      funext u
      by_cases h' : u.keyword = t.keyword <;> simp [Function.comp, h', mergeInto]
    rw [hp]
  · simp only [h, if_false, List.find?_append]
    by_cases hk : t.keyword == k <;> simp [List.find?, hk]

lemma sumMentions_append_single (ts : List Trend) (t : Trend) (k : String) :
    sumMentions (ts ++ [t]) k =
      sumMentions ts k + (if t.keyword == k then t.mentions else 0) := by
  unfold sumMentions
  by_cases hk : t.keyword == k <;> simp [List.filter_append, hk]

lemma sumVolume_append_single (ts : List Trend) (t : Trend) (k : String) :
    sumVolume (ts ++ [t]) k =
      sumVolume ts k + (if t.keyword == k then t.volume else 0) := by
  unfold sumVolume
  by_cases hk : t.keyword == k <;> simp [List.filter_append, hk]

lemma firstWith_append_single (ts : List Trend) (t : Trend) (k : String) :
    firstWith (ts ++ [t]) k =
      (firstWith ts k).or (if t.keyword == k then some t else none) := by
  unfold firstWith
  rw [List.find?_append]
  congr 1
  by_cases hk : t.keyword == k <;> simp [List.find?, hk]

lemma sumMentions_eq_zero_of_none {ts : List Trend} {k : String}
    (h : firstWith ts k = none) : sumMentions ts k = 0 := by
  unfold firstWith at h
  unfold sumMentions
  have : ts.filter (fun t => t.keyword == k) = [] := by
    rw [List.filter_eq_nil_iff]
    intro a ha
    have := List.find?_eq_none.mp h a ha
    simpa using this
  simp [this]

lemma sumVolume_eq_zero_of_none {ts : List Trend} {k : String}
    (h : firstWith ts k = none) : sumVolume ts k = 0 := by
  unfold firstWith at h
  unfold sumVolume
  have : ts.filter (fun t => t.keyword == k) = [] := by
    rw [List.filter_eq_nil_iff]
    intro a ha
    have := List.find?_eq_none.mp h a ha
    simpa using this
  simp [this]

lemma combineAll_append_single (ts : List Trend) (t : Trend) :
    combineAll (ts ++ [t]) = combineStep (combineAll ts) t := by
  unfold combineAll
  rw [List.foldl_append]
  rfl

lemma firstWith_some_spec {l : List Trend} {k : String} {u : Trend}
    (h : firstWith l k = some u) : u ∈ l ∧ u.keyword = k := by
  unfold firstWith at h
  exact ⟨List.mem_of_find?_eq_some h, by simpa using List.find?_some h⟩

lemma firstWith_none_spec {l : List Trend} {k : String}
    (h : firstWith l k = none) : ∀ u ∈ l, ¬ u.keyword = k := by
  unfold firstWith at h
  intro u hu
  have := List.find?_eq_none.mp h u hu
  simpa using this

lemma firstWith_combineAll (ts : List Trend) : ∀ k : String,
    firstWith (combineAll ts) k =
      (firstWith ts k).map
        (fun t => { t with mentions := sumMentions ts k, volume := sumVolume ts k }) := by
  induction ts using List.reverseRecOn with
  | nil => intro k; simp [combineAll, firstWith, List.find?]
  | append_singleton ts t ih =>
    intro k
    rw [combineAll_append_single, firstWith_combineStep]
    have hguard : ((combineAll ts).any fun u => u.keyword == t.keyword) =
        (firstWith ts t.keyword).isSome := by
      have h1 : ((combineAll ts).any fun u => u.keyword == t.keyword) =
          (firstWith (combineAll ts) t.keyword).isSome := by
        rcases h2 : firstWith (combineAll ts) t.keyword with _ | u
        · have h3 := firstWith_none_spec h2
          simp only [Option.isSome_none]
          exact List.any_eq_false.mpr (by simpa using h3)
        · have h3 := firstWith_some_spec h2
          simp only [Option.isSome_some]
          exact List.any_eq_true.mpr ⟨u, h3.1, by simp [h3.2]⟩
      rw [h1, ih t.keyword]
      rcases firstWith ts t.keyword with _ | w <;> simp
    rcases hf : firstWith ts t.keyword with _ | t0
    · rw [hguard, hf]
      simp only [Option.isSome_none, Bool.false_eq_true, if_false]
      rw [ih k, firstWith_append_single]
      by_cases hk : t.keyword == k
      · have hkeq : t.keyword = k := by simpa using hk
        subst hkeq
        rw [hf]
        simp [hk, sumMentions_append_single, sumVolume_append_single,
          sumMentions_eq_zero_of_none hf, sumVolume_eq_zero_of_none hf]
      · simp [hk, sumMentions_append_single, sumVolume_append_single]
    · rw [hguard, hf]
      simp only [Option.isSome_some, if_true]
      rw [ih k, firstWith_append_single, Option.map_map]
      by_cases hk : t.keyword == k
      · have hkeq : t.keyword = k := by simpa using hk
        subst hkeq
        rw [hf]
        have ht0' : t0.keyword = t.keyword := (firstWith_some_spec hf).2
        simp [Function.comp, ht0', mergeInto, sumMentions_append_single,
          sumVolume_append_single, Nat.add_comm]
      · rcases hfk : firstWith ts k with _ | u0
        · simp [hfk, hk]
        · have hu0' : u0.keyword = k := (firstWith_some_spec hfk).2
          have hne : ¬ u0.keyword = t.keyword := by
            intro hEq
            rw [hu0'] at hEq
            exact hk (by simp [hEq])
          simp [hfk, hk, Function.comp, hne, sumMentions_append_single,
            sumVolume_append_single]

lemma find?_keyword_of_mem {l : List Trend} (hnd : (l.map Trend.keyword).Nodup)
    {u : Trend} (hu : u ∈ l) :
    firstWith l u.keyword = some u := by
  unfold firstWith
  induction l with
  | nil => cases hu
  | cons v l ih =>
    rcases List.mem_cons.mp hu with rfl | hu'
    · simp [List.find?_cons_of_pos]
    · have hnd' : (∀ x ∈ l, ¬ x.keyword = v.keyword) ∧
          (l.map Trend.keyword).Nodup := by simpa using hnd
      have hv : ¬ (v.keyword == u.keyword) = true := by
        intro hb
        have heq : v.keyword = u.keyword := by simpa using hb
        exact hnd'.1 u hu' heq.symm
      have hvb : (v.keyword == u.keyword) = false := by
        cases hb : v.keyword == u.keyword
        · rfl
        · exact absurd hb hv
      simp only [List.find?_cons, hvb]
      exact ih hnd'.2 hu'

lemma combineAll_mem_spec {ts : List Trend} {u : Trend} (hu : u ∈ combineAll ts) :
    ∃ t, firstWith ts u.keyword = some t ∧ t ∈ ts ∧ u.keyword = t.keyword ∧
      u.growth = t.growth ∧ u.category = t.category ∧
      u.mentions = sumMentions ts u.keyword ∧ u.volume = sumVolume ts u.keyword := by
  have hfind : firstWith (combineAll ts) u.keyword = some u :=
    find?_keyword_of_mem (nodup_keys_combineAll ts) hu
  rw [firstWith_combineAll ts u.keyword] at hfind
  rcases Option.map_eq_some'.mp hfind with ⟨t, hft, hgt⟩
  exact ⟨t, hft, (firstWith_some_spec hft).1,
    (congrArg Trend.keyword hgt).symm,
    (congrArg Trend.growth hgt).symm,
    (congrArg Trend.category hgt).symm,
    (congrArg Trend.mentions hgt).symm,
    (congrArg Trend.volume hgt).symm⟩

instance : IsTotal Trend mentionsGe := ⟨fun a b => Nat.le_total b.mentions a.mentions⟩

instance : IsTrans Trend mentionsGe := ⟨fun _ _ _ h1 h2 => Nat.le_trans h2 h1⟩

lemma sortByMentionsDesc_perm (l : List Trend) :
    List.Perm (sortByMentionsDesc l) l := List.perm_insertionSort mentionsGe l

lemma sortByMentionsDesc_sorted (l : List Trend) :
    (sortByMentionsDesc l).Pairwise mentionsGe := List.sorted_insertionSort mentionsGe l

lemma mem_combineTrends {tss : List (List Trend)} {u : Trend}
    (hu : u ∈ combineTrends tss) : u ∈ combineAll tss.flatten := by
  unfold combineTrends at hu
  exact (sortByMentionsDesc_perm _).mem_iff.mp (List.mem_of_mem_take hu)

lemma nodup_keys_combineTrends (tss : List (List Trend)) :
    ((combineTrends tss).map Trend.keyword).Nodup := by
  have h2 : ((sortByMentionsDesc (combineAll tss.flatten)).map Trend.keyword).Nodup :=
    (((sortByMentionsDesc_perm _).map Trend.keyword).nodup_iff).mpr
      (nodup_keys_combineAll tss.flatten)
  unfold combineTrends
  rw [List.map_take]
  exact h2.sublist (List.take_sublist _ _)

/-! ### Concrete fixtures -/

/-- Empty aggregation metadata. -/
def meta0 : Meta :=
  { sourcesAnalyzed := 0, lastUpdated := 0, realDataSources := 0,
    successCount := 0, crawlResults := [] }

/-- A cache entry written at time 0 with the default TTL. -/
def entryTtl : CacheEntry :=
  { data := [], updatedAt := 0, summary := meta0, ttlMs := DEFAULT_TTL_MS }

/-- A cache holding `entryTtl` for both modes. -/
def staleCache : CacheState := fun _ => some entryTtl

/-- An empty cache. -/
def emptyCache : CacheState := fun _ => none

/-- An environment observed one millisecond past the TTL boundary. -/
def envStale : Env :=
  { getAll := .ok [], oracle := fun _ => .error "offline", now := 600001 }

/-- An environment observed within the TTL window. -/
def envFresh : Env :=
  { getAll := .ok [], oracle := fun _ => .error "offline", now := 1 }

/-- An environment with no registered sources. -/
def envEmpty : Env :=
  { getAll := .ok [], oracle := fun _ => .error "offline", now := 0 }

/-- An environment whose registry read throws. -/
def envRegistryDown : Env :=
  { getAll := .error "registry down", oracle := fun _ => .error "offline", now := 0 }

/-- An active YouTube source, as in the seeded store. -/
def srcYouTube : Source :=
  { id := 1, name := "Tech Channel", type := "YouTube",
    url := "https://youtube.com/@techchannel", status := "active" }

/-- An environment with one active YouTube source whose crawl rejects. -/
def envCrawlThrows : Env :=
  { getAll := .ok [srcYouTube], oracle := fun _ => .error "network error", now := 0 }

lemma ulcMissing_true : updateLastCrawledMissing = true := by decide

/-! ### Claim theorems -/

/-- C1 (counterexample): at an entry written at time 0 with the default
10-minute TTL, observing at exactly `ttl` milliseconds later is NOT stale,
refuting the claim that an entry exactly `ttl` milliseconds in the past is
stale while one millisecond less is not. -/
theorem isStale_exact_ttl_cex :
    ¬ (isStale (some entryTtl) (entryTtl.updatedAt + DEFAULT_TTL_MS) = true ∧
       isStale (some entryTtl) (entryTtl.updatedAt + (DEFAULT_TTL_MS - 1)) = false) := by
  decide

/-- C1 (amended): an entry whose `updatedAt` lies exactly `ttl` (10
minutes) milliseconds in the past is NOT stale; one millisecond less is
also not stale; staleness begins strictly beyond the TTL, at `ttl + 1`
milliseconds. -/
theorem isStale_ttl_boundary (e : CacheEntry) (h : e.ttlMs = DEFAULT_TTL_MS) :
    isStale (some e) (e.updatedAt + DEFAULT_TTL_MS) = false ∧
    isStale (some e) (e.updatedAt + (DEFAULT_TTL_MS - 1)) = false ∧
    isStale (some e) (e.updatedAt + (DEFAULT_TTL_MS + 1)) = true := by
  refine ⟨?_, ?_, ?_⟩ <;> simp [isStale, h, DEFAULT_TTL_MS]

/-- C1 (witness): the boundary behaviour at the concrete entry written at
time 0. -/
theorem isStale_ttl_boundary_witness :
    isStale (some entryTtl) (entryTtl.updatedAt + DEFAULT_TTL_MS) = false ∧
    isStale (some entryTtl) (entryTtl.updatedAt + (DEFAULT_TTL_MS - 1)) = false ∧
    isStale (some entryTtl) (entryTtl.updatedAt + (DEFAULT_TTL_MS + 1)) = true :=
  isStale_ttl_boundary entryTtl rfl

/-- C2 (counterexample): with a stale cached entry, a first non-forced
`getTrends` call starts a background refresh, and a second identical call
arriving before that refresh completes (the synchronous part leaves the
cache untouched) starts another one — refuting the claim that a second
stale read does not start a duplicate aggregation pass. -/
theorem getTrends_duplicate_background_cex :
    (getTrends envStale false false true staleCache).backgroundStarted = true ∧
    (getTrends envStale false false true
        (getTrends envStale false false true staleCache).cacheAfter).backgroundStarted = true := by
  exact ⟨rfl, rfl⟩

/-- C2 (amended): `getTrends` keeps no in-flight guard: every stale,
non-forced call with background refreshing allowed starts a background
aggregation pass, including a second call arriving while the pass started
by the first is still in flight, so duplicate concurrent refreshes for the
same mode are possible. -/
theorem getTrends_no_inflight_guard (env : Env) (sb : Bool) (st : CacheState)
    (e : CacheEntry) (h1 : st sb = some e)
    (h2 : isStale (some e) env.now = true) :
    (getTrends env sb false true st).backgroundStarted = true ∧
    (getTrends env sb false true
        (getTrends env sb false true st).cacheAfter).backgroundStarted = true := by
  have hout : getTrends env sb false true st =
      { response := .ok
          (shapeResponse e.data
            { sourcesAnalyzed := some e.summary.sourcesAnalyzed,
              lastUpdated := some e.updatedAt,
              realDataSources := some e.summary.realDataSources } env.now),
        cacheAfter := st, foregroundRefresh := false,
        backgroundStarted := isStale (some e) env.now && true } := by
    simp [getTrends, h1]
  refine ⟨?_, ?_⟩ <;> rw [hout] <;> simp [getTrends, h1, h2]

/-- C2 (witness): the duplicated background start at the concrete stale
cache and clock. -/
theorem getTrends_no_inflight_guard_witness :
    (getTrends envStale false false true staleCache).backgroundStarted = true ∧
    (getTrends envStale false false true
        (getTrends envStale false false true staleCache).cacheAfter).backgroundStarted = true :=
  getTrends_no_inflight_guard envStale false staleCache entryTtl rfl (by decide)

/-- C5: every aggregation pass produces a merged trends list sorted by
`mentions` descending whose length never exceeds 20. -/
theorem crawl_trends_sorted_bounded (env : Env) (sb : Bool) (out : CrawlOutput)
    (h : crawlAndExtract env sb = .ok out) :
    out.trends.length ≤ 20 ∧ out.trends.Pairwise mentionsGe := by
  unfold crawlAndExtract at h
  rcases hga : env.getAll with e | sources
  · rw [hga] at h; cases h
  · rw [hga] at h
    injection h with h'
    rw [← h']
    constructor
    · exact List.length_take_le 20 _
    · exact (sortByMentionsDesc_sorted _).sublist (List.take_sublist _ _)

/-- The output of an aggregation pass over an empty registry. -/
def outEmpty : CrawlOutput := { trends := [], meta := meta0 }

/-- C5 (witness): the bound and sortedness at the empty registry. -/
theorem crawl_trends_sorted_bounded_witness :
    outEmpty.trends.length ≤ 20 ∧ outEmpty.trends.Pairwise mentionsGe :=
  crawl_trends_sorted_bounded envEmpty false outEmpty rfl

/-- C6: with a non-stale cached entry and no force flag, `getTrends`
serves the shaped cached data, runs no aggregation pass (foreground or
background, hence no crawler or per-source crawl step), and leaves the
whole cache unchanged. -/
theorem getTrends_fresh_serves_cache (env : Env) (sb bg : Bool)
    (st : CacheState) (e : CacheEntry) (h1 : st sb = some e)
    (h2 : isStale (some e) env.now = false) :
    getTrends env sb false bg st =
      { response := .ok
          (shapeResponse e.data
            { sourcesAnalyzed := some e.summary.sourcesAnalyzed,
              lastUpdated := some e.updatedAt,
              realDataSources := some e.summary.realDataSources } env.now),
        cacheAfter := st, foregroundRefresh := false,
        backgroundStarted := false } := by
  simp [getTrends, h1, h2]

/-- C6 (witness): serving the concrete fresh entry at time 1. -/
theorem getTrends_fresh_serves_cache_witness :
    getTrends envFresh false false true staleCache =
      { response := .ok
          (shapeResponse entryTtl.data
            { sourcesAnalyzed := some entryTtl.summary.sourcesAnalyzed,
              lastUpdated := some entryTtl.updatedAt,
              realDataSources := some entryTtl.summary.realDataSources } envFresh.now),
        cacheAfter := staleCache, foregroundRefresh := false,
        backgroundStarted := false } :=
  getTrends_fresh_serves_cache envFresh false true staleCache entryTtl rfl (by decide)

/-- C8: when the registry read throws, `refreshTrends` propagates the
error to its caller and returns the cache exactly as it was — no entry for
any mode is written. -/
theorem refreshTrends_error_preserves_cache (env : Env) (sb : Bool)
    (st : CacheState) (msg : String) (h : env.getAll = .error msg) :
    refreshTrends env sb st = (.error msg, st) := by
  unfold refreshTrends crawlAndExtract
  rw [h]

/-- C8 (witness): the propagated registry failure at a concrete cache. -/
theorem refreshTrends_error_preserves_cache_witness :
    refreshTrends envRegistryDown false staleCache = (.error "registry down", staleCache) :=
  refreshTrends_error_preserves_cache envRegistryDown false staleCache "registry down" rfl

/-- Characterization of a successful `refreshTrends` call: its response is
the shaped pass output and the new cache overwrites exactly the entry for
the requested mode. -/
lemma refreshTrends_ok_spec {env : Env} {sb : Bool} {st st' : CacheState}
    {r : TrendsResponse} (h : refreshTrends env sb st = (.ok r, st')) :
    ∃ out, crawlAndExtract env sb = .ok out ∧
      r = shapeResponse out.trends
        { sourcesAnalyzed := some out.meta.sourcesAnalyzed,
          lastUpdated := some out.meta.lastUpdated,
          realDataSources := some out.meta.realDataSources } env.now ∧
      st' = (fun b => if b == sb then
          some { data := out.trends, updatedAt := out.meta.lastUpdated,
                 summary := out.meta, ttlMs := DEFAULT_TTL_MS } else st b) := by
  unfold refreshTrends at h
  rcases hca : crawlAndExtract env sb with e | out <;> rw [hca] at h
  · exact absurd (congrArg Prod.fst h) (by simp)
  · refine ⟨out, rfl, ?_, ?_⟩
    · have h1 := congrArg Prod.fst h
      simp only [Except.ok.injEq] at h1
      exact h1.symm
    · exact (congrArg Prod.snd h).symm

/-- Case analysis of one synchronous `getTrends` call. -/
lemma getTrends_cases (env : Env) (sb f bg : Bool) (st : CacheState) :
    (getTrends env sb f bg st =
        { response := (refreshTrends env sb st).1,
          cacheAfter := (refreshTrends env sb st).2,
          foregroundRefresh := true, backgroundStarted := false }) ∨
    (∃ e, st sb = some e ∧ f = false ∧
      getTrends env sb f bg st =
        { response := .ok
            (shapeResponse e.data
              { sourcesAnalyzed := some e.summary.sourcesAnalyzed,
                lastUpdated := some e.updatedAt,
                realDataSources := some e.summary.realDataSources } env.now),
          cacheAfter := st, foregroundRefresh := false,
          backgroundStarted := isStale (some e) env.now && bg }) := by
  rcases hst : st sb with _ | e
  · left; simp [getTrends, hst]
  · by_cases hf : f = true
    · left; simp [getTrends, hst, hf]
    · right
      refine ⟨e, rfl, by simpa using hf, ?_⟩
      simp only [Bool.not_eq_true] at hf
      simp [getTrends, hst, hf]

/-- C9: every response produced by `getTrends` or `refreshTrends`
satisfies `trends_count = trends.length`; the shaped list consists of the
four-field projections of the underlying records, so every element carries
`keyword`, `growth`, `category`, `mentions`. -/
theorem responses_shape_invariant :
    (∀ (l : List Trend) (m : ShapeMeta) (now : Int),
        (shapeResponse l m now).trends_count = (shapeResponse l m now).trends.length ∧
        (shapeResponse l m now).trends = l.map shapeTrend) ∧
    (∀ (env : Env) (sb : Bool) (st st' : CacheState) (r : TrendsResponse),
        refreshTrends env sb st = (.ok r, st') → r.trends_count = r.trends.length) ∧
    (∀ (env : Env) (sb f bg : Bool) (st : CacheState) (r : TrendsResponse),
        (getTrends env sb f bg st).response = .ok r →
          r.trends_count = r.trends.length) := by
  have hshape : ∀ (l : List Trend) (m : ShapeMeta) (now : Int),
      (shapeResponse l m now).trends_count = (shapeResponse l m now).trends.length :=
    fun l m now => rfl
  have hrefresh : ∀ (env : Env) (sb : Bool) (st st' : CacheState) (r : TrendsResponse),
      refreshTrends env sb st = (.ok r, st') → r.trends_count = r.trends.length := by
    intro env sb st st' r h
    rcases refreshTrends_ok_spec h with ⟨out, _, hr, _⟩
    rw [hr]
    exact hshape _ _ _
  refine ⟨fun l m now => ⟨hshape l m now, rfl⟩, hrefresh, ?_⟩
  intro env sb f bg st r h
  rcases getTrends_cases env sb f bg st with hc | ⟨e, _, _, hc⟩
  · rw [hc] at h
    exact hrefresh env sb st (refreshTrends env sb st).2 r (by rw [← h])
  · rw [hc] at h
    simp only [Except.ok.injEq] at h
    rw [← h]
    exact hshape _ _ _

/-- The shape metadata of a pass over an empty registry at time 0. -/
def shapeMetaZero : ShapeMeta :=
  { sourcesAnalyzed := some 0, lastUpdated := some 0, realDataSources := some 0 }

/-- C9 (witness): the count identity for the response served on a first
call over an empty registry. -/
theorem responses_shape_invariant_witness :
    (shapeResponse [] shapeMetaZero 0).trends_count =
      (shapeResponse [] shapeMetaZero 0).trends.length :=
  responses_shape_invariant.2.2 envEmpty false false true emptyCache _ rfl

/-- The two per-source singleton reports of the merge-correctness example:
two sources each report the keyword `ai`, with 3 and 5 mentions. -/
def aiPair : List (List Trend) :=
  [[{ keyword := "ai", mentions := 3, growth := "+45%", volume := 100, category := "Technology" }],
   [{ keyword := "ai", mentions := 5, growth := "+60%", volume := 200, category := "Technology" }]]

/-- The merged record of the example. -/
def mergedAi : Trend :=
  { keyword := "ai", mentions := 8, growth := "+45%", volume := 300, category := "Technology" }

/-- C3: every record of a merged trends list carries the sum of `mentions`
and of `volume` over all contributing records with its keyword, and the
keyword, growth, and category of the first-seen contributing record; in
particular two sources reporting `ai` with 3 and 5 mentions merge to `ai`
with 8 mentions. -/
theorem combineTrends_merge_sums :
    (∀ (tss : List (List Trend)) (u : Trend), u ∈ combineTrends tss →
        u.mentions = sumMentions tss.flatten u.keyword ∧
        u.volume = sumVolume tss.flatten u.keyword ∧
        ∃ t, firstWith tss.flatten u.keyword = some t ∧
          u.keyword = t.keyword ∧ u.growth = t.growth ∧ u.category = t.category) ∧
    combineTrends aiPair = [mergedAi] := by
  constructor
  · intro tss u hu
    rcases combineAll_mem_spec (mem_combineTrends hu) with
      ⟨t, hft, _, hk, hg, hc, hm, hv⟩
    exact ⟨hm, hv, t, hft, hk, hg, hc⟩
  · decide

/-- C3 (witness): the merged `ai` record's fields against the sums and the
first-seen record of the concrete two-source example. -/
theorem combineTrends_merge_sums_witness :
    mergedAi.mentions = sumMentions aiPair.flatten mergedAi.keyword ∧
    mergedAi.volume = sumVolume aiPair.flatten mergedAi.keyword ∧
    ∃ t, firstWith aiPair.flatten mergedAi.keyword = some t ∧
      mergedAi.keyword = t.keyword ∧ mergedAi.growth = t.growth ∧
      mergedAi.category = t.category :=
  combineTrends_merge_sums.1 aiPair mergedAi (by decide)

/-- The summary entry appended by the per-source catch handler. -/
def failedEntry (src : Source) (err : Option String) : SummaryEntry :=
  { source := src.name, type := src.type, status := "failed", isMockData := none,
    videosFound := none, trendsExtracted := none, error := err }

/-- The catch-handler entry produced when the missing
`sourcesData.updateLastCrawled` is invoked. -/
def ulcFailedEntry (src : Source) : SummaryEntry :=
  failedEntry src (some updateLastCrawledErrMsg)

/-- C7: when the crawl step of one active (YouTube) source rejects, the
aggregation pass still completes; that source contributes zero trend
records and exactly one `failed` summary entry carrying the error message,
the merged result is built from the concatenation of all per-source
contributions (the other sources' records, each produced independently of
the failing one), and `sources_analyzed` counts every active source,
the failed one included. -/
theorem crawl_partial_failure_resilient (env : Env) (sb : Bool)
    (srcs : List Source) (j : Nat) (srcj : Source) (msg : String)
    (hga : env.getAll = .ok srcs)
    (hj : (activeOf srcs)[j]? = some srcj)
    (hyt : isYouTubeSource srcj = true)
    (ho : env.oracle j = .error msg) :
    ∃ out, crawlAndExtract env sb = .ok out ∧
      out.meta.sourcesAnalyzed = (activeOf srcs).length ∧
      (sourcePasses env sb (activeOf srcs))[j]? =
        some ⟨[], [failedEntry srcj (some msg)], false⟩ ∧
      out.trends = combineTrends
        [((sourcePasses env sb (activeOf srcs)).map SourcePass.trends).flatten] ∧
      failedEntry srcj (some msg) ∈ out.meta.crawlResults := by
  have hpass : (sourcePasses env sb (activeOf srcs))[j]? =
      some (processSource sb srcj (env.oracle j)) := by
    simp [sourcePasses, List.getElem?_enum, hj]
  have hps : processSource sb srcj (env.oracle j) =
      ⟨[], [failedEntry srcj (some msg)], false⟩ := by
    rw [ho]
    simp [processSource, hyt, failedEntry]
  unfold crawlAndExtract
  rw [hga]
  refine ⟨_, rfl, rfl, ?_, rfl, ?_⟩
  · rw [hpass, hps]
  · show failedEntry srcj (some msg) ∈
      ((sourcePasses env sb (activeOf srcs)).map SourcePass.summaries).flatten
    refine List.mem_flatten.mpr
      ⟨(processSource sb srcj (env.oracle j)).summaries,
       List.mem_map.mpr ⟨_, List.getElem?_mem hpass, rfl⟩, ?_⟩
    rw [hps]
    simp

/-- C7 (witness): the resilient pass over one active YouTube source whose
crawl rejects with a network error. -/
theorem crawl_partial_failure_resilient_witness :
    ∃ out, crawlAndExtract envCrawlThrows false = .ok out ∧
      out.meta.sourcesAnalyzed = (activeOf [srcYouTube]).length ∧
      (sourcePasses envCrawlThrows false (activeOf [srcYouTube]))[0]? =
        some ⟨[], [failedEntry srcYouTube (some "network error")], false⟩ ∧
      out.trends = combineTrends
        [((sourcePasses envCrawlThrows false (activeOf [srcYouTube])).map
            SourcePass.trends).flatten] ∧
      failedEntry srcYouTube (some "network error") ∈ out.meta.crawlResults :=
  crawl_partial_failure_resilient envCrawlThrows false [srcYouTube] 0 srcYouTube
    "network error" rfl (by decide) (by decide) rfl

/-- C10: the sources data store does not export `updateLastCrawled`, so in
every branch of the crawl loop that records a `success` summary entry the
subsequent `sourcesData.updateLastCrawled(...)` call throws inside the
per-source try block: the same source also receives an additional `failed`
entry carrying the `TypeError` message, its pacing delay is skipped, and
its extracted trend records are nonetheless retained for the merge. -/
theorem updateLastCrawled_throws :
    updateLastCrawledMissing = true ∧
    (∀ (sb : Bool) (src : Source) (s : CrawlStep),
        isYouTubeSource src = true → s.success = true →
        processSource sb src (.ok s) =
          ⟨extractTrendingKeywords s.data.videos s.growthFn s.volumeFn,
           [⟨src.name, src.type, "success", some s.data.isMockData,
             some s.data.totalVideos,
             some (extractTrendingKeywords s.data.videos s.growthFn s.volumeFn).length,
             none⟩,
            ulcFailedEntry src],
           false⟩) ∧
    (∀ (src : Source) (step : Except String CrawlStep),
        isYouTubeSource src = false → src.type = "RSS" →
        processSource false src step =
          ⟨rssMockTrends,
           [⟨src.name, src.type, "success", some true, none,
             some rssMockTrends.length, none⟩,
            ulcFailedEntry src],
           false⟩) ∧
    (∀ (src : Source) (step : Except String CrawlStep),
        isYouTubeSource src = false → src.type = "Twitter" →
        processSource false src step =
          ⟨twitterMockTrends,
           [⟨src.name, src.type, "success", some true, none,
             some twitterMockTrends.length, none⟩,
            ulcFailedEntry src],
           false⟩) := by
  refine ⟨ulcMissing_true, ?_, ?_, ?_⟩
  · intro sb src s hyt hs
    simp [processSource, hyt, hs, ulcMissing_true, ulcFailedEntry, failedEntry]
  · intro src step hyt hrss
    simp [processSource, hyt, hrss, ulcMissing_true, ulcFailedEntry, failedEntry]
  · intro src step hyt htw
    simp [processSource, hyt, htw, ulcMissing_true, ulcFailedEntry, failedEntry]

/-- A resolved crawl step with one real video mentioning `tech`. -/
def stepTech : CrawlStep :=
  { success := true,
    data := { isMockData := false, totalVideos := 1, videos := [["tech"]] },
    growthFn := fun _ => "+50%", volumeFn := fun _ => 5000 }

/-- C10 (witness): the success-then-TypeError behaviour at a concrete
YouTube source and crawl step. -/
theorem updateLastCrawled_throws_witness :
    processSource false srcYouTube (.ok stepTech) =
      ⟨extractTrendingKeywords stepTech.data.videos stepTech.growthFn stepTech.volumeFn,
       [⟨srcYouTube.name, srcYouTube.type, "success", some stepTech.data.isMockData,
         some stepTech.data.totalVideos,
         some (extractTrendingKeywords stepTech.data.videos stepTech.growthFn
             stepTech.volumeFn).length,
         none⟩,
        ulcFailedEntry srcYouTube],
       false⟩ :=
  updateLastCrawled_throws.2.1 false srcYouTube stepTech (by decide) rfl

/-! ### Case-insensitive distinctness of returned trend lists -/

/-- Lower-case invariance and pairwise case-insensitive distinctness of
the keywords of a trend list. -/
def ciKeysDistinct (l : List Trend) : Prop :=
  l.Pairwise (fun a b => asciiLower a.keyword ≠ asciiLower b.keyword)

/-- Pairwise case-insensitive distinctness of a shaped trend list. -/
def ciKeysDistinctShaped (l : List ShapedTrend) : Prop :=
  l.Pairwise (fun a b => asciiLower a.keyword ≠ asciiLower b.keyword)

/-- The crawl collaborator only hands back lower-case-invariant video
keywords (true of the real crawler: they come from `extractKeywords` or
from the mock channel keyword lists). -/
def oracleKeywordsLc (env : Env) : Prop :=
  ∀ i s, env.oracle i = .ok s → ∀ k ∈ s.data.videos.flatten, asciiLower k = k

/-- Every entry held in the cache has case-insensitively distinct
keywords (maintained by every refresh; holds vacuously at start). -/
def cacheCiDistinct (st : CacheState) : Prop :=
  ∀ b e, st b = some e → ciKeysDistinct e.data

lemma allTrendKeywords_lc : ∀ k ∈ allTrendKeywords, asciiLower k = k := by decide

lemma mockChannelKeywords_lc :
    ∀ k ∈ (mockVideoKeywords100x ++ mockVideoKeywordsGeneric).flatten,
      asciiLower k = k := by decide

lemma rssMockTrends_lc : ∀ t ∈ rssMockTrends, asciiLower t.keyword = t.keyword := by
  decide

lemma twitterMockTrends_lc :
    ∀ t ∈ twitterMockTrends, asciiLower t.keyword = t.keyword := by decide

lemma keywordFold_mem {k : String} :
    ∀ (ws acc : List String), k ∈ ws.foldl keywordFold acc →
      k ∈ acc ∨ k ∈ allTrendKeywords := by
  intro ws
  induction ws with
  | nil => intro acc h; exact .inl h
  | cons w ws ih =>
    intro acc h
    rcases ih (keywordFold acc w) h with h1 | h1
    · unfold keywordFold at h1
      by_cases hc : (allTrendKeywords.contains w && !(acc.contains w)) = true
      · rw [if_pos hc] at h1
        rcases List.mem_append.mp h1 with h2 | h2
        · exact .inl h2
        · right
          have hw : w ∈ allTrendKeywords := by
            have := (Bool.and_eq_true _ _).mp hc
            simpa using this.1
          rwa [List.mem_singleton.mp h2]
      · rw [if_neg hc] at h1
        exact .inl h1
    · exact .inr h1

lemma extractKeywords_mem_taxonomy {text k : String}
    (hk : k ∈ extractKeywords text) : k ∈ allTrendKeywords := by
  unfold extractKeywords at hk
  rcases keywordFold_mem _ _ (List.mem_of_mem_take hk) with h | h
  · cases h
  · exact h

lemma keys_countFold (acc : List (String × Nat)) (k : String) :
    (countFold acc k).map Prod.fst =
      if acc.any (fun p => p.1 == k) then acc.map Prod.fst
      else acc.map Prod.fst ++ [k] := by
  unfold countFold
  by_cases h : acc.any (fun p => p.1 == k)
  · simp only [h, if_true, List.map_map]
    refine List.map_congr_left (fun p _ => ?_)
    by_cases hp : p.1 = k <;> simp [hp]
  · simp [h]

lemma countFold_key_mem {p : String × Nat} :
    ∀ (kws : List String) (acc : List (String × Nat)),
      p ∈ kws.foldl countFold acc →
      p.1 ∈ acc.map Prod.fst ∨ p.1 ∈ kws := by
  intro kws
  induction kws with
  | nil => intro acc h; exact .inl (List.mem_map.mpr ⟨p, h, rfl⟩)
  | cons k kws ih =>
    intro acc h
    rcases ih (countFold acc k) h with h1 | h1
    · rw [keys_countFold] at h1
      by_cases hc : acc.any (fun q => q.1 == k)
      · rw [if_pos hc] at h1
        exact .inl h1
      · rw [if_neg hc] at h1
        rcases List.mem_append.mp h1 with h2 | h2
        · exact .inl h2
        · exact .inr (by simp [List.mem_singleton.mp h2])
    · exact .inr (List.mem_cons_of_mem _ h1)

lemma keywordCountsOf_key_mem {kws : List String} {p : String × Nat}
    (hp : p ∈ keywordCountsOf kws) : p.1 ∈ kws := by
  rcases countFold_key_mem kws [] hp with h | h
  · simp at h
  · exact h

lemma extractTrendingKeywords_keyword_mem {videos : List (List String)}
    {g : String → String} {v : String → Nat} {t : Trend}
    (ht : t ∈ extractTrendingKeywords videos g v) : t.keyword ∈ videos.flatten := by
  unfold extractTrendingKeywords at ht
  have ht' := (sortByMentionsDesc_perm _).mem_iff.mp ht
  rcases List.mem_map.mp ht' with ⟨p, hp, rfl⟩
  exact keywordCountsOf_key_mem hp

lemma processSource_trends_lc (sb : Bool) (src : Source)
    (step : Except String CrawlStep)
    (hstep : ∀ s, step = .ok s → ∀ k ∈ s.data.videos.flatten, asciiLower k = k) :
    ∀ t ∈ (processSource sb src step).trends, asciiLower t.keyword = t.keyword := by
  intro t ht
  by_cases h1 : isYouTubeSource src
  · rcases step with e | s
    · simp [processSource, h1] at ht
    · by_cases h2 : s.success
      · simp only [processSource, h1, if_true, h2, ulcMissing_true] at ht
        exact hstep s rfl t.keyword (extractTrendingKeywords_keyword_mem ht)
      · simp [processSource, h1, h2] at ht
  · by_cases h2 : sb
    · simp [processSource, h1, h2] at ht
    · by_cases h3 : src.type = "RSS"
      · simp only [processSource, h1, h2, h3, ulcMissing_true] at ht
        exact rssMockTrends_lc t (by simpa using ht)
      · by_cases h4 : src.type = "Twitter"
        · simp only [processSource, h1, h2, h3, h4, ulcMissing_true] at ht
          exact twitterMockTrends_lc t (by simpa using ht)
        · simp [processSource, h1, h2, h3, h4] at ht

lemma ciKeysDistinct_combineTrends {tss : List (List Trend)}
    (hlc : ∀ t ∈ tss.flatten, asciiLower t.keyword = t.keyword) :
    ciKeysDistinct (combineTrends tss) := by
  have hnd : ((combineTrends tss).map Trend.keyword).Nodup :=
    nodup_keys_combineTrends tss
  have hpw : (combineTrends tss).Pairwise (fun a b => a.keyword ≠ b.keyword) :=
    List.pairwise_map.mp hnd
  have hfix : ∀ a ∈ combineTrends tss, asciiLower a.keyword = a.keyword := by
    intro a ha
    rcases combineAll_mem_spec (mem_combineTrends ha) with ⟨t, _, htm, hk, _⟩
    rw [hk]
    exact hlc t htm
  refine List.Pairwise.imp_of_mem ?_ hpw
  intro a b ha hb hne hEq
  exact hne (by rw [← hfix a ha, ← hfix b hb, hEq])

lemma crawlAndExtract_ci {env : Env} {sb : Bool} {out : CrawlOutput}
    (ho : oracleKeywordsLc env) (h : crawlAndExtract env sb = .ok out) :
    ciKeysDistinct out.trends := by
  unfold crawlAndExtract at h
  rcases hga : env.getAll with e | srcs <;> rw [hga] at h
  · cases h
  · injection h with h'
    rw [← h']
    show ciKeysDistinct (combineTrends
      [((sourcePasses env sb (activeOf srcs)).map SourcePass.trends).flatten])
    refine ciKeysDistinct_combineTrends ?_
    intro t ht
    have ht' : t ∈ ((sourcePasses env sb (activeOf srcs)).map
        SourcePass.trends).flatten := by simpa using ht
    rcases List.mem_flatten.mp ht' with ⟨l, hl, htl⟩
    rcases List.mem_map.mp hl with ⟨pass, hpassmem, rfl⟩
    rcases List.mem_map.mp hpassmem with ⟨⟨i, src⟩, _, rfl⟩
    exact processSource_trends_lc sb src (env.oracle i)
      (fun s hs => ho i s hs) t htl

lemma refreshTrends_ci {env : Env} {sb : Bool} {st : CacheState}
    (ho : oracleKeywordsLc env) (hst : cacheCiDistinct st) :
    ∀ (st' : CacheState) (r : TrendsResponse),
      refreshTrends env sb st = (.ok r, st') →
      ciKeysDistinctShaped r.trends ∧ cacheCiDistinct st' := by
  intro st' r h
  rcases refreshTrends_ok_spec h with ⟨out, hca, hr, hst'⟩
  have hci : ciKeysDistinct out.trends := crawlAndExtract_ci ho hca
  constructor
  · rw [hr]
    show ciKeysDistinctShaped (out.trends.map shapeTrend)
    exact List.pairwise_map.mpr hci
  · intro b e hbe
    rw [hst'] at hbe
    dsimp only at hbe
    by_cases hb : (b == sb) = true
    · rw [if_pos hb] at hbe
      injection hbe with hbe'
      rw [← hbe']
      exact hci
    · rw [if_neg hb] at hbe
      exact hst b e hbe

/-- C4: no two records of a trend list returned by `getTrends` or
`refreshTrends` share a case-insensitively equal keyword.  The merge step
keys records by exact keyword, so the invariant additionally relies on all
pipeline keywords being lower-case already: the real crawler's keywords
come from `extractKeywords` (whose outputs lie in the all-lower-case
taxonomy — first conjunct) or from the lower-case mock channel keyword
lists (second conjunct); the fabricated RSS/Twitter records and any entry
previously cached by a refresh preserve the property. -/
theorem trend_lists_ci_distinct :
    (∀ (text k : String), k ∈ extractKeywords text → asciiLower k = k) ∧
    (∀ k ∈ (mockVideoKeywords100x ++ mockVideoKeywordsGeneric).flatten,
        asciiLower k = k) ∧
    (∀ (env : Env) (sb : Bool) (st : CacheState),
      oracleKeywordsLc env → cacheCiDistinct st →
      (∀ (st' : CacheState) (r : TrendsResponse),
          refreshTrends env sb st = (.ok r, st') →
          ciKeysDistinctShaped r.trends ∧ cacheCiDistinct st') ∧
      (∀ (f bg : Bool) (r : TrendsResponse),
          (getTrends env sb f bg st).response = .ok r →
          ciKeysDistinctShaped r.trends ∧
            cacheCiDistinct (getTrends env sb f bg st).cacheAfter)) := by
  refine ⟨?_, mockChannelKeywords_lc, ?_⟩
  · intro text k hk
    exact allTrendKeywords_lc k (extractKeywords_mem_taxonomy hk)
  · intro env sb st ho hst
    refine ⟨refreshTrends_ci ho hst, ?_⟩
    intro f bg r h
    rcases getTrends_cases env sb f bg st with hc | ⟨e, hse, _, hc⟩
    · rw [hc] at h ⊢
      have hpair : refreshTrends env sb st = (.ok r, (refreshTrends env sb st).2) := by
        rw [← h]
      exact refreshTrends_ci ho hst (refreshTrends env sb st).2 r hpair
    · rw [hc] at h ⊢
      simp only [Except.ok.injEq] at h
      constructor
      · rw [← h]
        show ciKeysDistinctShaped (e.data.map shapeTrend)
        exact List.pairwise_map.mpr (hst sb e hse)
      · exact hst

/-- C4 (witness): the invariant on the first response over an empty
registry with an empty cache and a rejecting crawler. -/
theorem trend_lists_ci_distinct_witness :
    ciKeysDistinctShaped (shapeResponse [] shapeMetaZero 0).trends ∧
      cacheCiDistinct (getTrends envEmpty false false true emptyCache).cacheAfter :=
  (trend_lists_ci_distinct.2.2 envEmpty false emptyCache
      (fun i s h => by cases h) (fun b e h => by cases h)).2 false true
    (shapeResponse [] shapeMetaZero 0) rfl
